import Mathlib

/-!
Verification of the binary configuration-blob codec of dovecot-core
(the `master_service_settings_read` binary settings decoder).

The decoder itself is not part of the visible sources; only its test file
`src/lib-master/test-master-service-settings.c` is.  The model below is
therefore reconstructed from the design document, adjusted wherever the
test file pins a different behaviour (the test file is the authority):
byte inputs are `List Nat` (one `Nat` per byte), all multi-byte integers
are 8-byte big-endian, errors are a sum type whose constructors correspond
exactly to the distinct error-message families asserted by the tests.
-/

set_option autoImplicit false

namespace DovecotConf

/-- A byte buffer: one natural number (0..255 in practice) per byte. -/
abbrev Bytes := List Nat

/-- Bytes of an ASCII string literal. -/
def strBytes (s : String) : Bytes := s.data.map Char.toNat

/-- Render decoded raw bytes inside a diagnostic message. -/
def bytesToString (bs : Bytes) : String := String.mk (bs.map Char.ofNat)

/-- A single-quote character, used by the error-message formats. -/
def sq : String := String.mk [Char.ofNat 39]

/-- Modelled from the spec: section 7, and the expected error strings of
`test-master-service-settings.c`: one constructor per error-message family
of the decoder.  `blockNoNul` is the "Settings block doesn't end with NUL
at offset" failure exercised by the test at lines 47-53; it is present in
the code's behaviour but absent from the spec's five-kind taxonomy. -/
inductive DecodeError where
  | headerLine : DecodeError
  | headerVersion (version : Bytes) : DecodeError
  | sizeMismatch : DecodeError
  | areaTooSmall (field : String) : DecodeError
  | pointsOutside (field : String) : DecodeError
  | blockNoNul (offset : Nat) : DecodeError
  | duplicateBlock (name : Bytes) : DecodeError
  | invalidFilter (filter : Bytes) (engineMsg : String) : DecodeError
deriving Repr, DecidableEq

/-- The human-readable message of each error, with the exact formats the
test file matches by substring. -/
def DecodeError.message : DecodeError → String
  | headerLine => "File header doesn" ++ sq ++ "t begin with DOVECOT-CONFIG line"
  | headerVersion v => "Unsupported config file version " ++ sq ++ bytesToString v ++ sq
  | sizeMismatch => "Full size mismatch"
  | areaTooSmall f => "Area too small when reading size of " ++ sq ++ f ++ sq
  | pointsOutside f => sq ++ f ++ sq ++ " points outside area"
  | blockNoNul off => "Settings block doesn" ++ sq ++ "t end with NUL at offset " ++ toString off
  | duplicateBlock n => "Duplicate block name " ++ sq ++ bytesToString n ++ sq
  | invalidFilter f m => "Received invalid filter " ++ sq ++ bytesToString f ++ sq ++ ": " ++ m

/-- Membership in the spec's five-kind error taxonomy (HeaderError,
SizeMismatchError, AreaBoundsError, DuplicateBlockError, FilterSyntaxError).
The block-terminator failure is not one of them. -/
def DecodeError.isTaxonomy : DecodeError → Bool
  | blockNoNul _ => false
  | _ => true

/-- 8-byte big-endian encoding of an unsigned integer (spec section 6:
"All multi-byte integers are 8-byte unsigned, fixed width"). -/
def u64enc (n : Nat) : Bytes :=
  [n / 2 ^ 56 % 256, n / 2 ^ 48 % 256, n / 2 ^ 40 % 256, n / 2 ^ 32 % 256,
   n / 2 ^ 24 % 256, n / 2 ^ 16 % 256, n / 2 ^ 8 % 256, n % 256]

/-- Big-endian value of a byte list. -/
def u64dec (bs : Bytes) : Nat := bs.foldl (fun acc b => acc * 256 + b) 0

/-- Modelled from the spec: section 4.1 (the Bounded Cursor, absent from the visible sources): bounded read of an 8-byte
fixed-width integer; `none` when fewer than 8 bytes remain in the area. -/
def readU64 (a : Bytes) : Option (Nat × Bytes) :=
  if 8 ≤ a.length then some (u64dec (a.take 8), a.drop 8) else none

/-- Split a byte list at the first occurrence of the byte `t`: returns the
bytes before it and the bytes after it, or `none` when `t` never occurs. -/
def splitByte (t : Nat) : Bytes → Option (Bytes × Bytes)
  | [] => none
  | b :: rest =>
    if b = t then some ([], rest)
    else
      match splitByte t rest with
      | none => none
      | some (s, r) => some (b :: s, r)

/-- Modelled from the spec: section 4.1 (the Bounded Cursor, absent from the visible sources): read a NUL-terminated string from
an area; `none` when no NUL occurs within the area. -/
def splitNul (a : Bytes) : Option (Bytes × Bytes) := splitByte 0 a

/-- The fixed header-line marker, tab included (spec section 4.2). -/
def headerMarker : Bytes := strBytes "DOVECOT-CONFIG\t"

/-- The supported version set, exactly the string "1.0" (spec section 4.2). -/
def supportedVersions : List Bytes := [strBytes "1.0"]

/-- Modelled from the spec: section 4.2 (the header gate, absent from the
visible sources): the input must begin with `DOVECOT-CONFIG<TAB>`, and the
version string runs up to the first newline; a missing marker or missing
newline is the HeaderError of the first three test vectors.  Returns the
version bytes, the bytes after the newline, and their absolute offset. -/
def parseHeader (input : Bytes) : Except DecodeError (Bytes × Bytes × Nat) :=
  if input.take headerMarker.length = headerMarker then
    match splitByte 10 (input.drop headerMarker.length) with
    | some (v, rest) => Except.ok (v, rest, headerMarker.length + v.length + 1)
    | none => Except.error DecodeError.headerLine
  else Except.error DecodeError.headerLine

/-- The external filter-expression engine, an injected collaborator
(spec section 6): compiles a filter string or fails with a message. -/
def FilterEngine : Type := Bytes → Except String Unit

/-- One named settings block (spec section 3). -/
structure Block where
  name : Bytes
  baseError : Bytes
  basePayload : Bytes
  filter : Bytes
  filterError : Bytes
deriving Repr, DecidableEq

/-- The full decoded unit (spec section 3). -/
structure ConfigBlob where
  version : Bytes
  blocks : List Block
deriving Repr, DecidableEq

/-- Modelled from the spec: section 4.5 (the base-settings section decoder, absent from the visible sources), corrected by the test file
(lines 62-77): read an 8-byte size N, carve an N-byte sub-area, read the
NUL-terminated diagnostic string from WITHIN that sub-area, the remainder
of the sub-area being the opaque payload.  Returns (diagnostic, payload,
rest of the enclosing block area). -/
def decodeBaseSettings (a : Bytes) : Except DecodeError (Bytes × Bytes × Bytes) :=
  match readU64 a with
  | none => Except.error (DecodeError.areaTooSmall "base settings size")
  | some (n, rest) =>
    if n ≤ rest.length then
      match splitNul (rest.take n) with
      | none => Except.error (DecodeError.pointsOutside "base settings error")
      | some (err, payload) => Except.ok (err, payload, rest.drop n)
    else Except.error (DecodeError.pointsOutside "base settings size")

/-- Modelled from the spec: section 4.6 (the filter-settings section decoder, absent from the visible sources): read an 8-byte size N, carve an
N-byte sub-area (the filter area), read the filter-expression string and
then the diagnostic string inside it, and only then, when the filter
string is non-empty, hand it to the external engine.  Returns (filter,
diagnostic, rest of the enclosing block area); bytes of the filter area
left over after the two strings are ignored (spec section 9 leaves this
open; no test exercises it). -/
def decodeFilterSettings (engine : FilterEngine) (a : Bytes) :
    Except DecodeError (Bytes × Bytes × Bytes) :=
  match readU64 a with
  | none => Except.error (DecodeError.areaTooSmall "filter settings size")
  | some (n, rest) =>
    if n ≤ rest.length then
      match splitNul (rest.take n) with
      | none => Except.error (DecodeError.pointsOutside "filter string")
      | some (f, rest2) =>
        match splitNul rest2 with
        | none => Except.error (DecodeError.pointsOutside "filter settings error")
        | some (ferr, _) =>
          if f = [] then Except.ok (f, ferr, rest.drop n)
          else
            match engine f with
            | Except.ok _ => Except.ok (f, ferr, rest.drop n)
            | Except.error m => Except.error (DecodeError.invalidFilter f m)
    else Except.error (DecodeError.pointsOutside "filter settings size")

/-- Modelled from the spec: sections 4.3 and 4.4 (the block loop, absent from the visible sources), corrected by the test
file: the top-level block loop.  Each iteration reads an 8-byte block
size, carves the block area, checks that a non-empty block area ends with
a NUL byte (test lines 47-53), reads the NUL-terminated block name,
rejects a name already decoded (test lines 142-154 show this happens right
after the name is read), then decodes the base-settings and
filter-settings sections.  `fuel` is a structural-recursion bound; every
caller passes at least the area length, and each iteration consumes at
least 8 bytes, so the fuel never runs out.  `pos` is the absolute input
offset of the start of the unread part, used only in the
block-terminator diagnostic. -/
def decodeBlocksGo (engine : FilterEngine) :
    Nat → Bytes → Nat → List Block → Except DecodeError (List Block)
  | 0, a, _, acc =>
    if a = [] then Except.ok acc.reverse
    else Except.error (DecodeError.areaTooSmall "block size")
  | fuel + 1, a, pos, acc =>
    if a = [] then Except.ok acc.reverse
    else
      match readU64 a with
      | none => Except.error (DecodeError.areaTooSmall "block size")
      | some (size, rest) =>
        if size ≤ rest.length then
          if 0 < size ∧ (rest.take size).getLast? ≠ some 0 then
            Except.error (DecodeError.blockNoNul (pos + 8 + size - 1))
          else
            match splitNul (rest.take size) with
            | none => Except.error (DecodeError.pointsOutside "block name")
            | some (name, afterName) =>
              if name ∈ acc.map Block.name then
                Except.error (DecodeError.duplicateBlock name)
              else
                match decodeBaseSettings afterName with
                | Except.error e => Except.error e
                | Except.ok (be, bp, afterBase) =>
                  match decodeFilterSettings engine afterBase with
                  | Except.error e => Except.error e
                  | Except.ok (f, fe, _) =>
                    decodeBlocksGo engine fuel (rest.drop size) (pos + 8 + size)
                      ({ name := name, baseError := be, basePayload := bp,
                         filter := f, filterError := fe } :: acc)
        else Except.error (DecodeError.pointsOutside "block size")

/-- Modelled from the spec: sections 4.2-4.6 (the decoder proper is not
among the visible sources; the test file pins its behaviour): parse the
header line, gate the version, read the 8-byte full size, require it to
equal the exact remaining byte count, then decode blocks until the
top-level area is exhausted. -/
def decode (engine : FilterEngine) (input : Bytes) : Except DecodeError ConfigBlob :=
  match parseHeader input with
  | Except.error e => Except.error e
  | Except.ok (v, rest, pos) =>
    if v ∈ supportedVersions then
      match readU64 rest with
      | none => Except.error (DecodeError.areaTooSmall "full size")
      | some (fullSize, body) =>
        if fullSize = body.length then
          match decodeBlocksGo engine body.length body (pos + 8) [] with
          | Except.error e => Except.error e
          | Except.ok blocks => Except.ok { version := v, blocks := blocks }
        else Except.error DecodeError.sizeMismatch
    else Except.error (DecodeError.headerVersion v)

/-- Modelled from the spec: section 4.5, structural inverse (the encoder is absent from the visible sources): the
base-settings section, diagnostic string first, then the payload, inside
a sized sub-area. -/
def encodeBaseSettings (baseError basePayload : Bytes) : Bytes :=
  u64enc (baseError ++ 0 :: basePayload).length ++ (baseError ++ 0 :: basePayload)

/-- Modelled from the spec: section 4.6, structural inverse (the encoder is absent from the visible sources): the
filter-settings section, both strings NUL-terminated, inside a sized
sub-area. -/
def encodeFilterSettings (filter filterError : Bytes) : Bytes :=
  u64enc (filter ++ 0 :: (filterError ++ [0])).length ++ (filter ++ 0 :: (filterError ++ [0]))

/-- The body of one encoded block: name, then the two sections. -/
def encodeBlockBody (b : Block) : Bytes :=
  b.name ++ 0 :: (encodeBaseSettings b.baseError b.basePayload ++
    encodeFilterSettings b.filter b.filterError)

/-- One encoded block: its 8-byte size followed by its body. -/
def encodeBlock (b : Block) : Bytes :=
  u64enc (encodeBlockBody b).length ++ encodeBlockBody b

/-- All blocks, in order. -/
def encodeBlocks (bs : List Block) : Bytes := (bs.map encodeBlock).flatten

/-- Modelled from the spec: sections 4.3 and 6 (the encode entry point, absent from the visible sources):
header line, 8-byte full size, then the serialized blocks. -/
def encode (blob : ConfigBlob) : Bytes :=
  headerMarker ++ blob.version ++ 10 :: (u64enc (encodeBlocks blob.blocks).length ++
    encodeBlocks blob.blocks)

/-- A well-formed block value (spec section 3): non-empty NUL-free name,
NUL-free strings, and a filter that is empty or accepted by the engine. -/
def ValidBlock (engine : FilterEngine) (b : Block) : Prop :=
  b.name ≠ [] ∧ 0 ∉ b.name ∧ 0 ∉ b.baseError ∧ 0 ∉ b.filter ∧ 0 ∉ b.filterError ∧
  (b.filter = [] ∨ engine b.filter = Except.ok ())

/-- A well-formed blob value (spec section 3): supported version, valid
blocks with pairwise-distinct names, and a total size that fits the
8-byte size fields. -/
def ValidBlob (engine : FilterEngine) (blob : ConfigBlob) : Prop :=
  blob.version ∈ supportedVersions ∧
  (∀ b ∈ blob.blocks, ValidBlock engine b) ∧
  (blob.blocks.map Block.name).Nodup ∧
  (encodeBlocks blob.blocks).length < 2 ^ 64

/-- A stand-in for the external filter-expression engine with the
behaviour the test run exhibits: the empty filter is never submitted, and
the single-character filter "F" of the tests fails to compile with the
engine message the tests expect. -/
def testEngine : FilterEngine := fun f =>
  if f = [] then Except.ok () else Except.error "event filter: syntax error"

/-- The common header of the well-formed test vectors. -/
def tvHdr : Bytes := strBytes "DOVECOT-CONFIG\t1.0\n"

/-- The byte inputs of the `tests` array of
`src/lib-master/test-master-service-settings.c`, in order (78 is the byte
of "N", 69 of "E", 70 of "F"). -/
def testVectors : List Bytes :=
  [ strBytes "D",
    strBytes "DOVECOT-CONFIG\t",
    strBytes "DOVECOT-CONFIG\t1.0",
    strBytes "DOVECOT-CONFIG\t2.3\n",
    tvHdr ++ u64enc 1,
    tvHdr ++ u64enc 7 ++ [0, 0, 0, 0, 0, 0, 0],
    tvHdr ++ u64enc 8 ++ u64enc 0,
    tvHdr ++ u64enc 8 ++ u64enc 1,
    tvHdr ++ u64enc 10 ++ u64enc 1 ++ [78, 0],
    tvHdr ++ u64enc 17 ++ u64enc 9 ++ [78, 0] ++ [0, 0, 0, 0, 0, 0, 0],
    tvHdr ++ u64enc 18 ++ u64enc 10 ++ [78, 0] ++ u64enc 0,
    tvHdr ++ u64enc 20 ++ u64enc 12 ++ [78, 0] ++ u64enc 1 ++ [69] ++ [0],
    tvHdr ++ u64enc 26 ++ u64enc 18 ++ [78, 0] ++ u64enc 1 ++ [0] ++ [0, 0, 0, 0, 0, 0, 0],
    tvHdr ++ u64enc 27 ++ u64enc 19 ++ [78, 0] ++ u64enc 1 ++ [0] ++ u64enc 0,
    tvHdr ++ u64enc 29 ++ u64enc 21 ++ [78, 0] ++ u64enc 1 ++ [0] ++ u64enc 1 ++ [70] ++ [0],
    tvHdr ++ u64enc 29 ++ u64enc 21 ++ [78, 0] ++ u64enc 1 ++ [0] ++ u64enc 2 ++ [70, 0],
    tvHdr ++ u64enc 31 ++ u64enc 23 ++ [78, 0] ++ u64enc 1 ++ [0] ++ u64enc 3 ++ [70, 0] ++ [69] ++ [0],
    tvHdr ++ u64enc 30 ++ u64enc 22 ++ [78, 0] ++ u64enc 1 ++ [0] ++ u64enc 3 ++ [70, 0] ++ [0],
    tvHdr ++ u64enc 39 ++ u64enc 21 ++ [78, 0] ++ u64enc 1 ++ [0] ++ u64enc 2 ++ [0] ++ [0] ++
      u64enc 2 ++ [78, 0] ]

/-- The container layout shared by all well-headed inputs: header line,
8-byte full size, body. -/
def mkInput (version body : Bytes) : Bytes :=
  headerMarker ++ version ++ 10 :: (u64enc body.length ++ body)

/-- Test vector at lines 47-53 of the test file: block size 1, block area
"N" with no NUL terminator (the trailing NUL byte lies outside the
declared block area). -/
def tvBlockNameNoNul : Bytes := tvHdr ++ u64enc 10 ++ u64enc 1 ++ [78, 0]

/-- Test vector at lines 69-77 of the test file: base settings size 1,
sub-area "E" with no NUL; the following NUL byte lies outside the declared
base-settings sub-area but inside the block area. -/
def tvBaseErrorNoNul : Bytes :=
  tvHdr ++ u64enc 20 ++ u64enc 12 ++ [78, 0] ++ u64enc 1 ++ [69] ++ [0]

/-- Test vector at lines 108-117 of the test file: filter area "F\x00";
the filter string "F" reads fine but the filter diagnostic string has no
NUL left to terminate it. -/
def tvFilterErrorMissing : Bytes :=
  tvHdr ++ u64enc 29 ++ u64enc 21 ++ [78, 0] ++ u64enc 1 ++ [0] ++ u64enc 2 ++ [70, 0]

/-- Modelled from the words of claim C2, NOT from the code: read the
8-byte size N, consume exactly N bytes as the opaque payload, then read
the NUL-terminated diagnostic from the bytes remaining in the enclosing
block area (not bounded by N).  Exists only to be compared against
`decodeBaseSettings`, whose behaviour the test file pins. -/
def decodeBaseSettingsClaim (a : Bytes) : Except DecodeError (Bytes × Bytes × Bytes) :=
  match readU64 a with
  | none => Except.error (DecodeError.areaTooSmall "base settings size")
  | some (n, rest) =>
    if n ≤ rest.length then
      match splitNul (rest.drop n) with
      | none => Except.error (DecodeError.pointsOutside "base settings error")
      | some (err, r2) => Except.ok (err, rest.take n, r2)
    else Except.error (DecodeError.pointsOutside "base settings size")

/-- A filter engine that accepts every filter string. -/
def acceptAll : FilterEngine := fun _ => Except.ok ()

/-- A filter engine that rejects every filter string, with the engine
message observed in the test run. -/
def rejectAll : FilterEngine := fun _ => Except.error "event filter: syntax error"

/-- A concrete well-formed block used by witnesses. -/
def wBlock : Block :=
  { name := [78], baseError := [], basePayload := [1, 2], filter := [], filterError := [69] }

/-- A concrete well-formed blob used by witnesses. -/
def wBlob : ConfigBlob := { version := strBytes "1.0", blocks := [wBlock] }

/-- A concrete block whose filter string is "F", used by the C6 witness. -/
def fBlock : Block :=
  { name := [78], baseError := [], basePayload := [], filter := [70], filterError := [] }

/-- The structured decode outcome of each test vector; its messages are
exactly the error strings the test file expects, in order. -/
def testOutcomes : List DecodeError :=
  [ DecodeError.headerLine,
    DecodeError.headerLine,
    DecodeError.headerLine,
    DecodeError.headerVersion (strBytes "2.3"),
    DecodeError.sizeMismatch,
    DecodeError.areaTooSmall "block size",
    DecodeError.pointsOutside "block name",
    DecodeError.pointsOutside "block size",
    DecodeError.blockNoNul 35,
    DecodeError.areaTooSmall "base settings size",
    DecodeError.pointsOutside "base settings error",
    DecodeError.pointsOutside "base settings error",
    DecodeError.areaTooSmall "filter settings size",
    DecodeError.pointsOutside "filter string",
    DecodeError.pointsOutside "filter string",
    DecodeError.pointsOutside "filter settings error",
    DecodeError.pointsOutside "filter settings error",
    DecodeError.invalidFilter [70] "event filter: syntax error",
    DecodeError.duplicateBlock [78] ]

/-- The model reproduces the whole `tests` array of the repository's test
file: decoding every vector yields exactly the expected error. -/
theorem decode_matches_test_file :
    testVectors.map (decode testEngine) = testOutcomes.map Except.error := rfl

theorem u64enc_length (n : Nat) : (u64enc n).length = 8 := rfl

theorem u64dec_u64enc (n : Nat) : u64dec (u64enc n) = n % 2 ^ 64 := by
  simp only [u64enc, u64dec, List.foldl]
  norm_num
  omega

theorem readU64_enc_append (n : Nat) (rest : Bytes) :
    readU64 (u64enc n ++ rest) = some (n % 2 ^ 64, rest) := by
  have h8 : 8 ≤ (u64enc n ++ rest).length := by
    simp [List.length_append, u64enc_length]
  simp only [readU64, if_pos h8, List.take_left' (u64enc_length n),
    List.drop_left' (u64enc_length n), u64dec_u64enc]

theorem splitByte_append (t : Nat) (s rest : Bytes) (h : t ∉ s) :
    splitByte t (s ++ t :: rest) = some (s, rest) := by
  induction s with
  | nil => simp [splitByte]
  | cons b bs ih =>
    have hb : ¬b = t := fun hb => h (hb ▸ List.mem_cons_self b bs)
    have ih' := ih (fun hm => h (List.mem_cons_of_mem b hm))
    simp only [List.cons_append, splitByte, if_neg hb, List.append_eq, ih']

theorem splitByte_eq_none (t : Nat) (a : Bytes) (h : t ∉ a) : splitByte t a = none := by
  induction a with
  | nil => rfl
  | cons b bs ih =>
    have hb : ¬b = t := fun hb => h (hb ▸ List.mem_cons_self b bs)
    have ih' := ih (fun hm => h (List.mem_cons_of_mem b hm))
    simp only [splitByte, if_neg hb, List.append_eq, ih']

theorem splitNul_append (s rest : Bytes) (h : 0 ∉ s) :
    splitNul (s ++ 0 :: rest) = some (s, rest) := splitByte_append 0 s rest h

theorem splitNul_eq_none (a : Bytes) (h : 0 ∉ a) : splitNul a = none :=
  splitByte_eq_none 0 a h

theorem decodeBaseSettings_enc (be bp rest : Bytes) (h0 : 0 ∉ be)
    (hfit : be.length + 1 + bp.length < 2 ^ 64) :
    decodeBaseSettings (encodeBaseSettings be bp ++ rest) = Except.ok (be, bp, rest) := by
  have hsub : (be ++ 0 :: bp).length = be.length + 1 + bp.length := by
    simp [List.length_append]
    omega
  have hmod : (be ++ 0 :: bp).length % 2 ^ 64 = (be ++ 0 :: bp).length :=
    Nat.mod_eq_of_lt (by omega)
  have hle : (be ++ 0 :: bp).length ≤ ((be ++ 0 :: bp) ++ rest).length := by
    simp [List.length_append]
  have hsplit : splitNul (be ++ 0 :: bp) = some (be, bp) := splitNul_append be bp h0
  have hshape : encodeBaseSettings be bp ++ rest
      = u64enc (be ++ 0 :: bp).length ++ ((be ++ 0 :: bp) ++ rest) := by
    simp [encodeBaseSettings, List.append_assoc]
  rw [hshape]
  simp only [decodeBaseSettings, readU64_enc_append, hmod, hle, if_true,
    List.take_left, List.drop_left, hsplit]

theorem decodeFilterSettings_enc (engine : FilterEngine) (f fe rest : Bytes)
    (h0 : 0 ∉ f) (h0' : 0 ∉ fe) (hc : f = [] ∨ engine f = Except.ok ())
    (hfit : f.length + 1 + fe.length + 1 < 2 ^ 64) :
    decodeFilterSettings engine (encodeFilterSettings f fe ++ rest) =
      Except.ok (f, fe, rest) := by
  have hsub : (f ++ 0 :: (fe ++ [0])).length = f.length + 1 + fe.length + 1 := by
    simp [List.length_append]
    omega
  have hmod : (f ++ 0 :: (fe ++ [0])).length % 2 ^ 64 = (f ++ 0 :: (fe ++ [0])).length :=
    Nat.mod_eq_of_lt (by omega)
  have hle : (f ++ 0 :: (fe ++ [0])).length ≤ ((f ++ 0 :: (fe ++ [0])) ++ rest).length := by
    simp [List.length_append]
  have hsplit1 : splitNul (f ++ 0 :: (fe ++ [0])) = some (f, fe ++ [0]) :=
    splitNul_append f (fe ++ [0]) h0
  have hsplit2 : splitNul (fe ++ [0]) = some (fe, []) := splitNul_append fe [] h0'
  have hshape : encodeFilterSettings f fe ++ rest
      = u64enc (f ++ 0 :: (fe ++ [0])).length ++ ((f ++ 0 :: (fe ++ [0])) ++ rest) := by
    simp [encodeFilterSettings, List.append_assoc]
  rw [hshape]
  simp only [decodeFilterSettings, readU64_enc_append, hmod, hle, if_true,
    List.take_left, List.drop_left, hsplit1, hsplit2]
  rcases hc with hc | hc
  · simp [hc]
  · by_cases hf : f = []
    · simp [hf]
    · simp [if_neg hf, hc]

theorem decodeFilterSettings_enc_fail (engine : FilterEngine) (f fe rest : Bytes)
    (h0 : 0 ∉ f) (h0' : 0 ∉ fe) (hne : f ≠ []) (m : String)
    (hc : engine f = Except.error m)
    (hfit : f.length + 1 + fe.length + 1 < 2 ^ 64) :
    decodeFilterSettings engine (encodeFilterSettings f fe ++ rest) =
      Except.error (DecodeError.invalidFilter f m) := by
  have hsub : (f ++ 0 :: (fe ++ [0])).length = f.length + 1 + fe.length + 1 := by
    simp [List.length_append]
    omega
  have hmod : (f ++ 0 :: (fe ++ [0])).length % 2 ^ 64 = (f ++ 0 :: (fe ++ [0])).length :=
    Nat.mod_eq_of_lt (by omega)
  have hle : (f ++ 0 :: (fe ++ [0])).length ≤ ((f ++ 0 :: (fe ++ [0])) ++ rest).length := by
    simp [List.length_append]
  have hsplit1 : splitNul (f ++ 0 :: (fe ++ [0])) = some (f, fe ++ [0]) :=
    splitNul_append f (fe ++ [0]) h0
  have hsplit2 : splitNul (fe ++ [0]) = some (fe, []) := splitNul_append fe [] h0'
  have hshape : encodeFilterSettings f fe ++ rest
      = u64enc (f ++ 0 :: (fe ++ [0])).length ++ ((f ++ 0 :: (fe ++ [0])) ++ rest) := by
    simp [encodeFilterSettings, List.append_assoc]
  rw [hshape]
  simp only [decodeFilterSettings, readU64_enc_append, hmod, hle, if_true,
    List.take_left, List.drop_left, hsplit1, hsplit2, if_neg hne, hc]

theorem getLast?_append_right (l₁ l₂ : Bytes) (h : l₂.getLast? = some 0) :
    (l₁ ++ l₂).getLast? = some 0 := by
  rw [List.getLast?_append, h]
  rfl

theorem encodeBlockBody_ends_nul (b : Block) : (encodeBlockBody b).getLast? = some 0 := by
  unfold encodeBlockBody
  apply getLast?_append_right
  show (([0] : Bytes) ++ (encodeBaseSettings b.baseError b.basePayload ++
    encodeFilterSettings b.filter b.filterError)).getLast? = some 0
  apply getLast?_append_right
  apply getLast?_append_right
  unfold encodeFilterSettings
  apply getLast?_append_right
  apply getLast?_append_right
  show (([0] : Bytes) ++ (b.filterError ++ [0])).getLast? = some 0
  apply getLast?_append_right
  exact List.getLast?_concat _

theorem decodeBlocksGo_nil (engine : FilterEngine) (fuel pos : Nat) (acc : List Block) :
    decodeBlocksGo engine fuel [] pos acc = Except.ok acc.reverse := by
  cases fuel <;> rfl

theorem decodeBlocksGo_enc_step (engine : FilterEngine) (fuel : Nat) (blk : Block)
    (rest : Bytes) (pos : Nat) (acc : List Block)
    (hv : ValidBlock engine blk) (hfresh : blk.name ∉ acc.map Block.name)
    (hfit : (encodeBlockBody blk).length < 2 ^ 64) :
    decodeBlocksGo engine (fuel + 1) (encodeBlock blk ++ rest) pos acc
      = decodeBlocksGo engine fuel rest (pos + 8 + (encodeBlockBody blk).length)
          (blk :: acc) := by
  obtain ⟨hn_ne, hn0, hbe0, hf0, hfe0, hcomp⟩ := hv
  have hshape : encodeBlock blk ++ rest
      = u64enc (encodeBlockBody blk).length ++ (encodeBlockBody blk ++ rest) := by
    simp [encodeBlock, List.append_assoc]
  have hmod : (encodeBlockBody blk).length % 2 ^ 64 = (encodeBlockBody blk).length :=
    Nat.mod_eq_of_lt hfit
  have hne : u64enc (encodeBlockBody blk).length ++ (encodeBlockBody blk ++ rest) ≠ [] := by
    simp [u64enc]
  have hszle : (encodeBlockBody blk).length ≤ (encodeBlockBody blk ++ rest).length := by
    simp [List.length_append]
  have htake : (encodeBlockBody blk ++ rest).take (encodeBlockBody blk).length
      = encodeBlockBody blk := List.take_left _ _
  have hdrop : (encodeBlockBody blk ++ rest).drop (encodeBlockBody blk).length
      = rest := List.drop_left _ _
  have hlast : (encodeBlockBody blk).getLast? = some 0 := encodeBlockBody_ends_nul blk
  have hsplitname : splitNul (encodeBlockBody blk)
      = some (blk.name, encodeBaseSettings blk.baseError blk.basePayload ++
          encodeFilterSettings blk.filter blk.filterError) := by
    rw [encodeBlockBody]
    exact splitNul_append _ _ hn0
  have hbasefit : blk.baseError.length + 1 + blk.basePayload.length < 2 ^ 64 := by
    have h1 : (encodeBlockBody blk).length
        = blk.name.length + 1 + ((encodeBaseSettings blk.baseError blk.basePayload).length +
            (encodeFilterSettings blk.filter blk.filterError).length) := by
      simp [encodeBlockBody, List.length_append]
      omega
    have h2 : (encodeBaseSettings blk.baseError blk.basePayload).length
        = 8 + (blk.baseError.length + 1 + blk.basePayload.length) := by
      simp [encodeBaseSettings, List.length_append, u64enc_length]
      omega
    omega
  have hfiltfit : blk.filter.length + 1 + blk.filterError.length + 1 < 2 ^ 64 := by
    have h1 : (encodeBlockBody blk).length
        = blk.name.length + 1 + ((encodeBaseSettings blk.baseError blk.basePayload).length +
            (encodeFilterSettings blk.filter blk.filterError).length) := by
      simp [encodeBlockBody, List.length_append]
      omega
    have h2 : (encodeFilterSettings blk.filter blk.filterError).length
        = 8 + (blk.filter.length + 1 + (blk.filterError.length + 1)) := by
      simp [encodeFilterSettings, List.length_append, u64enc_length]
      omega
    omega
  have hbase : decodeBaseSettings (encodeBaseSettings blk.baseError blk.basePayload ++
      encodeFilterSettings blk.filter blk.filterError)
      = Except.ok (blk.baseError, blk.basePayload,
          encodeFilterSettings blk.filter blk.filterError) :=
    decodeBaseSettings_enc _ _ _ hbe0 hbasefit
  have hfilt : decodeFilterSettings engine (encodeFilterSettings blk.filter blk.filterError)
      = Except.ok (blk.filter, blk.filterError, []) := by
    have h := decodeFilterSettings_enc engine blk.filter blk.filterError [] hf0 hfe0
      hcomp hfiltfit
    simpa using h
  rw [hshape]
  simp only [decodeBlocksGo, if_neg hne, readU64_enc_append, hmod, hszle, if_true,
    htake, hdrop, hlast, hsplitname, hfresh, hbase, hfilt]
  simp

theorem encodeBlocks_cons (b : Block) (bs : List Block) :
    encodeBlocks (b :: bs) = encodeBlock b ++ encodeBlocks bs := by
  simp [encodeBlocks]

theorem length_encodeBlock (b : Block) :
    (encodeBlock b).length = 8 + (encodeBlockBody b).length := by
  simp [encodeBlock, u64enc_length, List.length_append]

theorem length_le_encodeBlocks (bs : List Block) :
    bs.length ≤ (encodeBlocks bs).length := by
  induction bs with
  | nil => simp [encodeBlocks]
  | cons b bs ih =>
    rw [encodeBlocks_cons]
    simp only [List.length_cons, List.length_append, length_encodeBlock]
    omega

theorem length_encodeBlock_le (b : Block) (bs : List Block) (h : b ∈ bs) :
    (encodeBlock b).length ≤ (encodeBlocks bs).length := by
  induction bs with
  | nil => cases h
  | cons c cs ih =>
    rw [encodeBlocks_cons]
    rcases List.mem_cons.mp h with h | h
    · subst h
      simp [List.length_append]
    · have := ih h
      simp only [List.length_append]
      omega

theorem decodeBlocksGo_encBlocks_append (engine : FilterEngine) (bs : List Block) :
    ∀ (fuel0 : Nat) (rest : Bytes) (pos : Nat) (acc : List Block),
    (∀ b ∈ bs, ValidBlock engine b) →
    (bs.map Block.name).Nodup →
    (∀ b ∈ bs, b.name ∉ acc.map Block.name) →
    (∀ b ∈ bs, (encodeBlockBody b).length < 2 ^ 64) →
    decodeBlocksGo engine (bs.length + fuel0) (encodeBlocks bs ++ rest) pos acc
      = decodeBlocksGo engine fuel0 rest (pos + (encodeBlocks bs).length)
          (bs.reverse ++ acc) := by
  induction bs with
  | nil =>
    intro fuel0 rest pos acc _ _ _ _
    simp [encodeBlocks]
  | cons b bs ih =>
    intro fuel0 rest pos acc hv hnd hfresh hfit
    have hstep := decodeBlocksGo_enc_step engine (bs.length + fuel0) b
      (encodeBlocks bs ++ rest) pos acc (hv b (List.mem_cons_self b bs))
      (hfresh b (List.mem_cons_self b bs)) (hfit b (List.mem_cons_self b bs))
    have hfuel : (b :: bs).length + fuel0 = (bs.length + fuel0) + 1 := by
      simp [List.length_cons]
      omega
    rw [encodeBlocks_cons, List.append_assoc, hfuel, hstep]
    rw [List.map_cons] at hnd
    have hnd' := (List.nodup_cons.mp hnd).2
    have hhead : b.name ∉ bs.map Block.name := (List.nodup_cons.mp hnd).1
    have hfresh' : ∀ c ∈ bs, c.name ∉ (b :: acc).map Block.name := by
      intro c hc
      simp only [List.map_cons, List.mem_cons]
      rintro (hcb | hca)
      · exact hhead (hcb ▸ List.mem_map_of_mem Block.name hc)
      · exact hfresh c (List.mem_cons_of_mem b hc) hca
    rw [ih fuel0 rest (pos + 8 + (encodeBlockBody b).length) (b :: acc)
      (fun c hc => hv c (List.mem_cons_of_mem b hc)) hnd' hfresh'
      (fun c hc => hfit c (List.mem_cons_of_mem b hc))]
    have hpos : pos + 8 + (encodeBlockBody b).length + (encodeBlocks bs).length
        = pos + (encodeBlock b ++ encodeBlocks bs).length := by
      simp only [List.length_append, length_encodeBlock]
      omega
    have hacc : bs.reverse ++ (b :: acc) = (b :: bs).reverse ++ acc := by
      simp
    rw [hpos, hacc]

theorem decodeBlocksGo_encBlocks (engine : FilterEngine) (bs : List Block)
    (fuel0 pos : Nat)
    (hv : ∀ b ∈ bs, ValidBlock engine b)
    (hnd : (bs.map Block.name).Nodup)
    (hfit : ∀ b ∈ bs, (encodeBlockBody b).length < 2 ^ 64) :
    decodeBlocksGo engine (bs.length + fuel0) (encodeBlocks bs) pos []
      = Except.ok bs := by
  have h := decodeBlocksGo_encBlocks_append engine bs fuel0 [] pos [] hv hnd
    (by intro b _; simp) hfit
  rw [List.append_nil] at h
  rw [h, decodeBlocksGo_nil]
  simp

theorem parseHeader_enc (v rest : Bytes) (hv : (10 : Nat) ∉ v) :
    parseHeader (headerMarker ++ v ++ 10 :: rest)
      = Except.ok (v, rest, headerMarker.length + v.length + 1) := by
  have htake : (headerMarker ++ (v ++ 10 :: rest)).take headerMarker.length
      = headerMarker := List.take_left _ _
  have hdrop : (headerMarker ++ (v ++ 10 :: rest)).drop headerMarker.length
      = v ++ 10 :: rest := List.drop_left _ _
  simp only [List.append_assoc, parseHeader, htake, if_true,
    hdrop, splitByte_append 10 v rest hv]

theorem mem_supportedVersions (v : Bytes) :
    v ∈ supportedVersions ↔ v = strBytes "1.0" := by
  simp [supportedVersions]

theorem decode_encode (engine : FilterEngine) (blob : ConfigBlob)
    (h : ValidBlob engine blob) : decode engine (encode blob) = Except.ok blob := by
  obtain ⟨hver, hv, hnd, hfit⟩ := h
  have hv10 : (10 : Nat) ∉ blob.version := by
    rw [mem_supportedVersions] at hver
    rw [hver]
    decide
  have hver' : blob.version ∈ supportedVersions := by
    rw [mem_supportedVersions] at hver
    rw [hver]
    decide
  have hmod : (encodeBlocks blob.blocks).length % 2 ^ 64
      = (encodeBlocks blob.blocks).length := Nat.mod_eq_of_lt hfit
  have hperblock : ∀ b ∈ blob.blocks, (encodeBlockBody b).length < 2 ^ 64 := by
    intro b hb
    have h1 := length_encodeBlock_le b blob.blocks hb
    have h2 := length_encodeBlock b
    omega
  have hfuel : (encodeBlocks blob.blocks).length
      = blob.blocks.length + ((encodeBlocks blob.blocks).length - blob.blocks.length) := by
    have := length_le_encodeBlocks blob.blocks
    omega
  have hblocks : decodeBlocksGo engine (encodeBlocks blob.blocks).length
      (encodeBlocks blob.blocks) (headerMarker.length + blob.version.length + 1 + 8) []
      = Except.ok blob.blocks := by
    rw [hfuel]
    exact decodeBlocksGo_encBlocks engine blob.blocks _ _ hv hnd hperblock
  have hshape : encode blob = headerMarker ++ blob.version ++
      10 :: (u64enc (encodeBlocks blob.blocks).length ++ encodeBlocks blob.blocks) := rfl
  rw [hshape]
  simp only [decode, parseHeader_enc blob.version _ hv10, hver', if_true,
    readU64_enc_append, hmod, hblocks]

theorem decodeBlocksGo_ok_nodup (engine : FilterEngine) :
    ∀ (fuel : Nat) (a : Bytes) (pos : Nat) (acc bs : List Block),
    (acc.map Block.name).Nodup →
    decodeBlocksGo engine fuel a pos acc = Except.ok bs →
    (bs.map Block.name).Nodup := by
  intro fuel
  induction fuel with
  | zero =>
    intro a pos acc bs hacc h
    by_cases ha : a = []
    · rw [ha, decodeBlocksGo_nil] at h
      injection h with h'
      rw [← h', List.map_reverse, List.nodup_reverse]
      exact hacc
    · rw [decodeBlocksGo, if_neg ha] at h
      cases h
  | succ fuel ih =>
    intro a pos acc bs hacc h
    by_cases ha : a = []
    · rw [ha, decodeBlocksGo_nil] at h
      injection h with h'
      rw [← h', List.map_reverse, List.nodup_reverse]
      exact hacc
    · rw [decodeBlocksGo, if_neg ha] at h
      split at h
      · cases h
      · split at h
        · split at h
          · cases h
          · split at h
            · cases h
            · split at h
              · cases h
              · split at h
                · cases h
                · split at h
                  · cases h
                  · rename_i name afterName hdup be bp afterBase hbase f fe rest2 hfilt
                    refine ih _ _ _ _ ?_ h
                    rw [List.map_cons, List.nodup_cons]
                    exact ⟨by assumption, hacc⟩
        · cases h

theorem decode_mkInput_error (engine : FilterEngine) (v body : Bytes) (e : DecodeError)
    (hv10 : (10 : Nat) ∉ v) (hver : v ∈ supportedVersions) (hfit : body.length < 2 ^ 64)
    (hgo : decodeBlocksGo engine body.length body (headerMarker.length + v.length + 1 + 8)
      [] = Except.error e) :
    decode engine (mkInput v body) = Except.error e := by
  simp only [mkInput, decode, parseHeader_enc v _ hv10, hver, if_true,
    readU64_enc_append, Nat.mod_eq_of_lt hfit, hgo]

theorem decode_ok_nodup (engine : FilterEngine) (input : Bytes) (blob : ConfigBlob)
    (h : decode engine input = Except.ok blob) :
    (blob.blocks.map Block.name).Nodup := by
  unfold decode at h
  split at h
  · cases h
  · split at h
    · split at h
      · cases h
      · split at h
        · split at h
          · cases h
          · rename_i blocks hgo
            injection h with h'
            rw [← h']
            exact decodeBlocksGo_ok_nodup engine _ _ _ [] blocks (by simp) hgo
        · cases h
    · cases h

theorem decodeBlocksGo_dup (engine : FilterEngine) (fuel : Nat) (n extra : Bytes)
    (pos : Nat) (acc : List Block)
    (hmem : n ∈ acc.map Block.name) (h0 : 0 ∉ n)
    (hlast : ((n ++ 0 :: extra) : Bytes).getLast? = some 0)
    (hfit : ((n ++ 0 :: extra) : Bytes).length < 2 ^ 64) :
    decodeBlocksGo engine (fuel + 1)
      (u64enc ((n ++ 0 :: extra) : Bytes).length ++ (n ++ 0 :: extra)) pos acc
      = Except.error (DecodeError.duplicateBlock n) := by
  have hne : u64enc ((n ++ 0 :: extra) : Bytes).length ++ (n ++ 0 :: extra) ≠ [] := by
    simp [u64enc]
  have htake : ((n ++ 0 :: extra) : Bytes).take ((n ++ 0 :: extra) : Bytes).length
      = n ++ 0 :: extra := List.take_length _
  have hsplit : splitNul (n ++ 0 :: extra) = some (n, extra) := splitNul_append n extra h0
  simp only [decodeBlocksGo, if_neg hne, readU64_enc_append, Nat.mod_eq_of_lt hfit,
    le_refl, if_true, htake, hlast, hsplit, hmem]
  simp

theorem decodeBlocksGo_nameOnly_fresh (engine : FilterEngine) (fuel : Nat) (n2 : Bytes)
    (pos : Nat) (acc : List Block)
    (hmem : n2 ∉ acc.map Block.name) (h0 : 0 ∉ n2)
    (hfit : ((n2 ++ [0]) : Bytes).length < 2 ^ 64) :
    decodeBlocksGo engine (fuel + 1)
      (u64enc ((n2 ++ [0]) : Bytes).length ++ (n2 ++ [0])) pos acc
      = Except.error (DecodeError.areaTooSmall "base settings size") := by
  have hne : u64enc ((n2 ++ [0]) : Bytes).length ++ (n2 ++ [0]) ≠ [] := by
    simp [u64enc]
  have htake : ((n2 ++ [0]) : Bytes).take ((n2 ++ [0]) : Bytes).length
      = n2 ++ [0] := List.take_length _
  have hlast : ((n2 ++ [0]) : Bytes).getLast? = some 0 := List.getLast?_concat _
  have hsplit : splitNul (n2 ++ [0]) = some (n2, []) := splitNul_append n2 [] h0
  have hbase : decodeBaseSettings [] =
      Except.error (DecodeError.areaTooSmall "base settings size") := rfl
  simp only [decodeBlocksGo, if_neg hne, readU64_enc_append, Nat.mod_eq_of_lt hfit,
    le_refl, if_true, htake, hlast, hsplit, hmem, hbase]
  simp

theorem decodeBlocksGo_enc_step_filterfail (engine : FilterEngine) (fuel : Nat)
    (blk : Block) (rest : Bytes) (pos : Nat) (acc : List Block)
    (hn0 : 0 ∉ blk.name) (hbe0 : 0 ∉ blk.baseError) (hf0 : 0 ∉ blk.filter)
    (hfe0 : 0 ∉ blk.filterError)
    (hfresh : blk.name ∉ acc.map Block.name)
    (hne : blk.filter ≠ []) (m : String) (hcomp : engine blk.filter = Except.error m)
    (hfit : (encodeBlockBody blk).length < 2 ^ 64) :
    decodeBlocksGo engine (fuel + 1) (encodeBlock blk ++ rest) pos acc
      = Except.error (DecodeError.invalidFilter blk.filter m) := by
  have hshape : encodeBlock blk ++ rest
      = u64enc (encodeBlockBody blk).length ++ (encodeBlockBody blk ++ rest) := by
    simp [encodeBlock, List.append_assoc]
  have hmod : (encodeBlockBody blk).length % 2 ^ 64 = (encodeBlockBody blk).length :=
    Nat.mod_eq_of_lt hfit
  have hnenil : u64enc (encodeBlockBody blk).length ++ (encodeBlockBody blk ++ rest)
      ≠ [] := by simp [u64enc]
  have hszle : (encodeBlockBody blk).length ≤ (encodeBlockBody blk ++ rest).length := by
    simp [List.length_append]
  have htake : (encodeBlockBody blk ++ rest).take (encodeBlockBody blk).length
      = encodeBlockBody blk := List.take_left _ _
  have hdrop : (encodeBlockBody blk ++ rest).drop (encodeBlockBody blk).length
      = rest := List.drop_left _ _
  have hlast : (encodeBlockBody blk).getLast? = some 0 := encodeBlockBody_ends_nul blk
  have hsplitname : splitNul (encodeBlockBody blk)
      = some (blk.name, encodeBaseSettings blk.baseError blk.basePayload ++
          encodeFilterSettings blk.filter blk.filterError) := by
    rw [encodeBlockBody]
    exact splitNul_append _ _ hn0
  have hbasefit : blk.baseError.length + 1 + blk.basePayload.length < 2 ^ 64 := by
    have h1 : (encodeBlockBody blk).length
        = blk.name.length + 1 + ((encodeBaseSettings blk.baseError blk.basePayload).length +
            (encodeFilterSettings blk.filter blk.filterError).length) := by
      simp [encodeBlockBody, List.length_append]
      omega
    have h2 : (encodeBaseSettings blk.baseError blk.basePayload).length
        = 8 + (blk.baseError.length + 1 + blk.basePayload.length) := by
      simp [encodeBaseSettings, List.length_append, u64enc_length]
      omega
    omega
  have hfiltfit : blk.filter.length + 1 + blk.filterError.length + 1 < 2 ^ 64 := by
    have h1 : (encodeBlockBody blk).length
        = blk.name.length + 1 + ((encodeBaseSettings blk.baseError blk.basePayload).length +
            (encodeFilterSettings blk.filter blk.filterError).length) := by
      simp [encodeBlockBody, List.length_append]
      omega
    have h2 : (encodeFilterSettings blk.filter blk.filterError).length
        = 8 + (blk.filter.length + 1 + (blk.filterError.length + 1)) := by
      simp [encodeFilterSettings, List.length_append, u64enc_length]
      omega
    omega
  have hbase : decodeBaseSettings (encodeBaseSettings blk.baseError blk.basePayload ++
      encodeFilterSettings blk.filter blk.filterError)
      = Except.ok (blk.baseError, blk.basePayload,
          encodeFilterSettings blk.filter blk.filterError) :=
    decodeBaseSettings_enc _ _ _ hbe0 hbasefit
  have hfilt : decodeFilterSettings engine (encodeFilterSettings blk.filter blk.filterError)
      = Except.error (DecodeError.invalidFilter blk.filter m) := by
    have h := decodeFilterSettings_enc_fail engine blk.filter blk.filterError []
      hf0 hfe0 hne m hcomp hfiltfit
    simpa using h
  rw [hshape]
  simp only [decodeBlocksGo, if_neg hnenil, readU64_enc_append, hmod, hszle, if_true,
    htake, hdrop, hlast, hsplitname, hfresh, hbase, hfilt]
  simp

theorem decode_dup_generic (engine : FilterEngine) (bs₁ : List Block) (n extra : Bytes)
    (hv : ∀ b ∈ bs₁, ValidBlock engine b)
    (hnd : (bs₁.map Block.name).Nodup)
    (hn : n ∈ bs₁.map Block.name)
    (h0 : 0 ∉ n)
    (hlast : ((n ++ 0 :: extra) : Bytes).getLast? = some 0)
    (hfit : (encodeBlocks bs₁ ++ (u64enc ((n ++ 0 :: extra) : Bytes).length ++
      (n ++ 0 :: extra))).length < 2 ^ 64) :
    decode engine (mkInput (strBytes "1.0") (encodeBlocks bs₁ ++
      (u64enc ((n ++ 0 :: extra) : Bytes).length ++ (n ++ 0 :: extra))))
      = Except.error (DecodeError.duplicateBlock n) := by
  have hlen : (encodeBlocks bs₁ ++ (u64enc ((n ++ 0 :: extra) : Bytes).length ++
      (n ++ 0 :: extra))).length
      = (encodeBlocks bs₁).length + (8 + ((n ++ 0 :: extra) : Bytes).length) := by
    simp [List.length_append, u64enc_length]
  have hb1 : bs₁.length ≤ (encodeBlocks bs₁).length := length_le_encodeBlocks bs₁
  have hperblock : ∀ b ∈ bs₁, (encodeBlockBody b).length < 2 ^ 64 := by
    intro b hb
    have h1 := length_encodeBlock_le b bs₁ hb
    have h2 := length_encodeBlock b
    omega
  obtain ⟨f0, hf0⟩ : ∃ f0, (encodeBlocks bs₁ ++ (u64enc ((n ++ 0 :: extra) : Bytes).length ++
      (n ++ 0 :: extra))).length - bs₁.length = f0 + 1 :=
    ⟨(encodeBlocks bs₁ ++ (u64enc ((n ++ 0 :: extra) : Bytes).length ++
      (n ++ 0 :: extra))).length - bs₁.length - 1, by omega⟩
  apply decode_mkInput_error engine _ _ _ (by decide) (by decide) hfit
  have hfuel : (encodeBlocks bs₁ ++ (u64enc ((n ++ 0 :: extra) : Bytes).length ++
      (n ++ 0 :: extra))).length = bs₁.length + (f0 + 1) := by omega
  rw [hfuel]
  rw [decodeBlocksGo_encBlocks_append engine bs₁ (f0 + 1) _ _ [] hv hnd
    (by intro b _; simp) hperblock]
  rw [List.append_nil]
  apply decodeBlocksGo_dup engine f0 n extra _ _ _ h0 hlast (by omega)
  rw [List.map_reverse, List.mem_reverse]
  exact hn

theorem decode_nameOnly_generic (engine : FilterEngine) (bs₁ : List Block) (n2 : Bytes)
    (hv : ∀ b ∈ bs₁, ValidBlock engine b)
    (hnd : (bs₁.map Block.name).Nodup)
    (hn : n2 ∉ bs₁.map Block.name)
    (h0 : 0 ∉ n2)
    (hfit : (encodeBlocks bs₁ ++ (u64enc ((n2 ++ [0]) : Bytes).length ++
      (n2 ++ [0]))).length < 2 ^ 64) :
    decode engine (mkInput (strBytes "1.0") (encodeBlocks bs₁ ++
      (u64enc ((n2 ++ [0]) : Bytes).length ++ (n2 ++ [0]))))
      = Except.error (DecodeError.areaTooSmall "base settings size") := by
  have hlen : (encodeBlocks bs₁ ++ (u64enc ((n2 ++ [0]) : Bytes).length ++
      (n2 ++ [0]))).length
      = (encodeBlocks bs₁).length + (8 + ((n2 ++ [0]) : Bytes).length) := by
    simp [List.length_append, u64enc_length]
  have hb1 : bs₁.length ≤ (encodeBlocks bs₁).length := length_le_encodeBlocks bs₁
  have hperblock : ∀ b ∈ bs₁, (encodeBlockBody b).length < 2 ^ 64 := by
    intro b hb
    have h1 := length_encodeBlock_le b bs₁ hb
    have h2 := length_encodeBlock b
    omega
  obtain ⟨f0, hf0⟩ : ∃ f0, (encodeBlocks bs₁ ++ (u64enc ((n2 ++ [0]) : Bytes).length ++
      (n2 ++ [0]))).length - bs₁.length = f0 + 1 :=
    ⟨(encodeBlocks bs₁ ++ (u64enc ((n2 ++ [0]) : Bytes).length ++
      (n2 ++ [0]))).length - bs₁.length - 1, by omega⟩
  apply decode_mkInput_error engine _ _ _ (by decide) (by decide) hfit
  have hfuel : (encodeBlocks bs₁ ++ (u64enc ((n2 ++ [0]) : Bytes).length ++
      (n2 ++ [0]))).length = bs₁.length + (f0 + 1) := by omega
  rw [hfuel]
  rw [decodeBlocksGo_encBlocks_append engine bs₁ (f0 + 1) _ _ [] hv hnd
    (by intro b _; simp) hperblock]
  rw [List.append_nil]
  apply decodeBlocksGo_nameOnly_fresh engine f0 n2 _ _ _ h0 (by omega)
  rw [List.map_reverse, List.mem_reverse]
  exact hn

theorem decode_filterfail_generic (engine : FilterEngine) (bs₁ : List Block)
    (blk : Block) (junk : Bytes) (m : String)
    (hv : ∀ b ∈ bs₁, ValidBlock engine b)
    (hnd : (bs₁.map Block.name).Nodup)
    (hfresh : blk.name ∉ bs₁.map Block.name)
    (hn0 : 0 ∉ blk.name) (hbe0 : 0 ∉ blk.baseError) (hf0 : 0 ∉ blk.filter)
    (hfe0 : 0 ∉ blk.filterError)
    (hne : blk.filter ≠ []) (hcomp : engine blk.filter = Except.error m)
    (hfit : (encodeBlocks bs₁ ++ (encodeBlock blk ++ junk)).length < 2 ^ 64) :
    decode engine (mkInput (strBytes "1.0") (encodeBlocks bs₁ ++ (encodeBlock blk ++ junk)))
      = Except.error (DecodeError.invalidFilter blk.filter m) := by
  have hlen : (encodeBlocks bs₁ ++ (encodeBlock blk ++ junk)).length
      = (encodeBlocks bs₁).length + (8 + (encodeBlockBody blk).length + junk.length) := by
    simp [List.length_append, length_encodeBlock]
  have hb1 : bs₁.length ≤ (encodeBlocks bs₁).length := length_le_encodeBlocks bs₁
  have hperblock : ∀ b ∈ bs₁, (encodeBlockBody b).length < 2 ^ 64 := by
    intro b hb
    have h1 := length_encodeBlock_le b bs₁ hb
    have h2 := length_encodeBlock b
    omega
  obtain ⟨f0, hf0'⟩ : ∃ f0, (encodeBlocks bs₁ ++ (encodeBlock blk ++ junk)).length -
      bs₁.length = f0 + 1 :=
    ⟨(encodeBlocks bs₁ ++ (encodeBlock blk ++ junk)).length - bs₁.length - 1, by omega⟩
  apply decode_mkInput_error engine _ _ _ (by decide) (by decide) hfit
  have hfuel : (encodeBlocks bs₁ ++ (encodeBlock blk ++ junk)).length
      = bs₁.length + (f0 + 1) := by omega
  rw [hfuel]
  rw [decodeBlocksGo_encBlocks_append engine bs₁ (f0 + 1) _ _ [] hv hnd
    (by intro b _; simp) hperblock]
  rw [List.append_nil]
  apply decodeBlocksGo_enc_step_filterfail engine f0 blk junk _ _ hn0 hbe0 hf0 hfe0
    ?_ hne m hcomp (by omega)
  rw [List.map_reverse, List.mem_reverse]
  exact hfresh

theorem decodeBaseSettings_no_nul (n : Nat) (rest : Bytes) (hle : n ≤ rest.length)
    (hmod : n < 2 ^ 64) (h0 : 0 ∉ rest.take n) :
    decodeBaseSettings (u64enc n ++ rest)
      = Except.error (DecodeError.pointsOutside "base settings error") := by
  simp only [decodeBaseSettings, readU64_enc_append, Nat.mod_eq_of_lt hmod, hle,
    if_true, splitNul_eq_none _ h0]

theorem decodeBaseSettings_reads_within (n : Nat) (rest e p : Bytes)
    (hle : n ≤ rest.length) (hmod : n < 2 ^ 64)
    (hsplit : splitNul (rest.take n) = some (e, p)) :
    decodeBaseSettings (u64enc n ++ rest) = Except.ok (e, p, rest.drop n) := by
  simp only [decodeBaseSettings, readU64_enc_append, Nat.mod_eq_of_lt hmod, hle,
    if_true, hsplit]

theorem decodeBlocksGo_zero_size (engine : FilterEngine) (fuel : Nat) (rest : Bytes)
    (pos : Nat) (acc : List Block) :
    decodeBlocksGo engine (fuel + 1) (u64enc 0 ++ rest) pos acc
      = Except.error (DecodeError.pointsOutside "block name") := by
  have hne : u64enc 0 ++ rest ≠ [] := by simp [u64enc]
  have hsplit : splitNul (rest.take 0) = none := by rw [List.take_zero]; rfl
  have hcond : ¬(0 < 0 ∧ ((rest.take 0).getLast? ≠ some 0)) := by simp
  simp only [decodeBlocksGo, if_neg hne, readU64_enc_append, Nat.zero_mod,
    Nat.zero_le, if_true, if_neg hcond, hsplit]

theorem decodeBlocksGo_no_nul (engine : FilterEngine) (fuel sz : Nat) (rest : Bytes)
    (pos : Nat) (acc : List Block) (hpos : 0 < sz) (hle : sz ≤ rest.length)
    (hmod : sz < 2 ^ 64) (h0 : 0 ∉ rest.take sz) :
    decodeBlocksGo engine (fuel + 1) (u64enc sz ++ rest) pos acc
      = Except.error (DecodeError.blockNoNul (pos + 8 + sz - 1)) := by
  have hne : u64enc sz ++ rest ≠ [] := by simp [u64enc]
  have hlen : (rest.take sz).length = sz := by
    rw [List.length_take]
    exact min_eq_left hle
  have hnenil : rest.take sz ≠ [] := by
    intro hc
    rw [hc] at hlen
    simp at hlen
    omega
  have hg : ((rest.take sz).getLast? ≠ some 0) := by
    rw [List.getLast?_eq_getLast _ hnenil]
    intro hc
    injection hc with hc'
    exact h0 (hc' ▸ List.getLast_mem hnenil)
  have hcond : 0 < sz ∧ ((rest.take sz).getLast? ≠ some 0) := ⟨hpos, hg⟩
  simp only [decodeBlocksGo, if_neg hne, readU64_enc_append, Nat.mod_eq_of_lt hmod,
    hle, if_true, if_pos hcond]

theorem decodeFilterSettings_error_missing (engine : FilterEngine) (n : Nat)
    (rest f r2 : Bytes) (hle : n ≤ rest.length) (hmod : n < 2 ^ 64)
    (hsplit : splitNul (rest.take n) = some (f, r2)) (h0 : 0 ∉ r2) :
    decodeFilterSettings engine (u64enc n ++ rest)
      = Except.error (DecodeError.pointsOutside "filter settings error") := by
  simp only [decodeFilterSettings, readU64_enc_append, Nat.mod_eq_of_lt hmod, hle,
    if_true, hsplit, splitNul_eq_none r2 h0]

/-- C1 counterexample: the claim says every failing decode returns one of
the five taxonomy errors; on the test-file input whose block area is not
NUL-terminated (test lines 47-53), decode fails with the block-terminator
error, which lies outside the taxonomy (it is neither a bounds, header,
size, duplicate nor filter error). -/
theorem claim_C1_counterexample :
    decode testEngine tvBlockNameNoNul = Except.error (DecodeError.blockNoNul 35) ∧
    (DecodeError.blockNoNul 35).isTaxonomy = false :=
  ⟨rfl, rfl⟩

/-- C1 (amended): for every byte sequence, truncated at any prefix length,
decode is total: it either returns a ConfigBlob or returns an error that
is one of the five taxonomy errors or the settings-block-terminator error;
in this embedding every read goes through bounded take/drop/scan
operations on the supplied buffer, so no access outside it exists and no
other abort path exists. -/
theorem claim_C1_amended (engine : FilterEngine) (input : Bytes) (k : Nat) :
    (∃ blob, decode engine (input.take k) = Except.ok blob) ∨
    (∃ e, decode engine (input.take k) = Except.error e ∧
      (e.isTaxonomy = true ∨ ∃ off, e = DecodeError.blockNoNul off)) := by
  cases h : decode engine (input.take k) with
  | ok blob => exact Or.inl ⟨blob, rfl⟩
  | error e =>
    refine Or.inr ⟨e, rfl, ?_⟩
    cases e <;> simp [DecodeError.isTaxonomy]

/-- C2 counterexample: on the base-settings section of the test input at
lines 69-77 (size N = 1, sub-area "E", NUL one byte later in the block
area), the decoder errs with the bounds error naming "base settings
error" - as the test file demands - while the claim's reading (payload of
N bytes, then diagnostic from the remaining block area not bounded by N)
would succeed with an empty diagnostic.  The third conjunct checks the
full test vector against the decoder. -/
theorem claim_C2_counterexample :
    decodeBaseSettings (u64enc 1 ++ [69, 0])
      = Except.error (DecodeError.pointsOutside "base settings error") ∧
    decodeBaseSettingsClaim (u64enc 1 ++ [69, 0]) = Except.ok ([], [69], []) ∧
    decode testEngine tvBaseErrorNoNul
      = Except.error (DecodeError.pointsOutside "base settings error") :=
  ⟨rfl, rfl, rfl⟩

/-- C2 (amended): in the base-settings section, after reading the 8-byte
size N, an N-byte sub-area is carved; the NUL-terminated diagnostic string
is read from WITHIN that sub-area (bounded by N) and the remainder of the
sub-area is the opaque payload; exactly N + 8 bytes of the block area are
consumed.  If no NUL occurs within the N carved bytes (including N = 0),
decode fails with AreaBoundsError naming "base settings error". -/
theorem claim_C2_amended :
    (∀ (n : Nat) (rest : Bytes), n ≤ rest.length → n < 2 ^ 64 → 0 ∉ rest.take n →
      decodeBaseSettings (u64enc n ++ rest)
        = Except.error (DecodeError.pointsOutside "base settings error")) ∧
    (∀ (n : Nat) (rest e p : Bytes), n ≤ rest.length → n < 2 ^ 64 →
      splitNul (rest.take n) = some (e, p) →
      decodeBaseSettings (u64enc n ++ rest) = Except.ok (e, p, rest.drop n)) :=
  ⟨decodeBaseSettings_no_nul, decodeBaseSettings_reads_within⟩

theorem claim_C2_witness :
    ((1 : Nat) ≤ ([69, 0] : Bytes).length ∧ (0 : Nat) ∉ ([69, 0] : Bytes).take 1 ∧
      decodeBaseSettings (u64enc 1 ++ [69, 0])
        = Except.error (DecodeError.pointsOutside "base settings error")) ∧
    (splitNul (([0, 7] : Bytes).take 2) = some ([], [7]) ∧
      decodeBaseSettings (u64enc 2 ++ [0, 7]) = Except.ok ([], [7], [])) :=
  ⟨⟨by decide, by decide,
      claim_C2_amended.1 1 [69, 0] (by decide) (by decide) (by decide)⟩,
   ⟨by decide,
      claim_C2_amended.2 2 [0, 7] [] [7] (by decide) (by decide) (by decide)⟩⟩

/-- C3 counterexample: the claim says a block area with no NUL terminator
fails with AreaBoundsError naming "block name"; on the test-file input at
lines 47-53 the decoder instead fails with the distinct block-terminator
error ("Settings block doesn't end with NUL at offset"), before the block
name is ever read. -/
theorem claim_C3_counterexample :
    decode testEngine tvBlockNameNoNul = Except.error (DecodeError.blockNoNul 35) ∧
    DecodeError.blockNoNul 35 ≠ DecodeError.pointsOutside "block name" ∧
    DecodeError.blockNoNul 35 ≠ DecodeError.areaTooSmall "block name" :=
  ⟨rfl, by simp, by simp⟩

/-- C3 (amended): reading the block name fails with AreaBoundsError naming
"block name" exactly in the zero-length-block-area case; a non-empty block
area containing no NUL anywhere fails earlier, with the
settings-block-terminator error (its last byte is not NUL), so the
"block name" bounds error never covers that case. -/
theorem claim_C3_amended :
    (∀ (engine : FilterEngine) (fuel : Nat) (rest : Bytes) (pos : Nat)
      (acc : List Block),
      decodeBlocksGo engine (fuel + 1) (u64enc 0 ++ rest) pos acc
        = Except.error (DecodeError.pointsOutside "block name")) ∧
    (∀ (engine : FilterEngine) (fuel sz : Nat) (rest : Bytes) (pos : Nat)
      (acc : List Block),
      0 < sz → sz ≤ rest.length → sz < 2 ^ 64 → 0 ∉ rest.take sz →
      decodeBlocksGo engine (fuel + 1) (u64enc sz ++ rest) pos acc
        = Except.error (DecodeError.blockNoNul (pos + 8 + sz - 1))) :=
  ⟨decodeBlocksGo_zero_size, decodeBlocksGo_no_nul⟩

theorem claim_C3_witness :
    decodeBlocksGo testEngine (0 + 1) (u64enc 0 ++ [1, 2]) 27 []
      = Except.error (DecodeError.pointsOutside "block name") ∧
    ((0 : Nat) < 1 ∧ (0 : Nat) ∉ ([78] : Bytes).take 1 ∧
      decodeBlocksGo testEngine (0 + 1) (u64enc 1 ++ [78]) 27 []
        = Except.error (DecodeError.blockNoNul (27 + 8 + 1 - 1))) :=
  ⟨claim_C3_amended.1 testEngine 0 [1, 2] 27 [],
   ⟨by decide, by decide,
      claim_C3_amended.2 testEngine 0 1 [78] 27 [] (by decide) (by decide)
        (by decide) (by decide)⟩⟩

/-- C4: for every valid ConfigBlob (supported version, NUL-free strings,
pairwise-distinct block names, filters accepted by the engine, sizes
fitting the 8-byte fields), encode produces bytes that decode accepts, and
decoding yields exactly the same blob (same version, same blocks with
equal payloads, diagnostics and filter strings). -/
theorem claim_C4_round_trip (engine : FilterEngine) (blob : ConfigBlob)
    (h : ValidBlob engine blob) :
    decode engine (encode blob) = Except.ok blob :=
  decode_encode engine blob h

theorem claim_C4_witness :
    ValidBlob acceptAll wBlob ∧ decode acceptAll (encode wBlob) = Except.ok wBlob := by
  have hv : ValidBlob acceptAll wBlob := by
    refine ⟨by decide, ?_, by decide, by decide⟩
    intro b hb
    rw [wBlob, List.mem_singleton] at hb
    subst hb
    exact ⟨by decide, by decide, by decide, by decide, by decide, Or.inl rfl⟩
  exact ⟨hv, claim_C4_round_trip acceptAll wBlob hv⟩

/-- C5: decoding a container in which a later block bears a name already
carried by an earlier block fails with DuplicateBlockError naming that
block (shown over the encoded-input family, with an arbitrary tail after
the repeated name); and consequently every ConfigBlob produced by a
successful decode has pairwise-distinct block names. -/
theorem claim_C5_duplicate :
    (∀ (engine : FilterEngine) (bs₁ : List Block) (n extra : Bytes),
      (∀ b ∈ bs₁, ValidBlock engine b) → (bs₁.map Block.name).Nodup →
      n ∈ bs₁.map Block.name → 0 ∉ n →
      ((n ++ 0 :: extra) : Bytes).getLast? = some 0 →
      (encodeBlocks bs₁ ++ (u64enc ((n ++ 0 :: extra) : Bytes).length ++
        (n ++ 0 :: extra))).length < 2 ^ 64 →
      decode engine (mkInput (strBytes "1.0") (encodeBlocks bs₁ ++
        (u64enc ((n ++ 0 :: extra) : Bytes).length ++ (n ++ 0 :: extra))))
        = Except.error (DecodeError.duplicateBlock n)) ∧
    (∀ (engine : FilterEngine) (input : Bytes) (blob : ConfigBlob),
      decode engine input = Except.ok blob → (blob.blocks.map Block.name).Nodup) :=
  ⟨decode_dup_generic, decode_ok_nodup⟩

theorem claim_C5_witness :
    decode testEngine (mkInput (strBytes "1.0") (encodeBlocks [wBlock] ++
      (u64enc (([78] ++ 0 :: []) : Bytes).length ++ ([78] ++ 0 :: []))))
      = Except.error (DecodeError.duplicateBlock [78]) ∧
    (wBlob.blocks.map Block.name).Nodup := by
  have hvb : ValidBlock testEngine wBlock :=
    ⟨by decide, by decide, by decide, by decide, by decide, Or.inl rfl⟩
  have hv : ∀ b ∈ [wBlock], ValidBlock testEngine b := by
    intro b hb
    rw [List.mem_singleton] at hb
    subst hb
    exact hvb
  constructor
  · exact claim_C5_duplicate.1 testEngine [wBlock] [78] [] hv (by decide) (by decide)
      (by decide) (by decide) (by decide)
  · exact claim_C5_duplicate.2 testEngine (encode wBlob) wBlob rfl

/-- C6: whenever the decoded filter string is non-empty and the engine's
compile of it fails with message m, the whole decode fails with a
FilterSyntaxError embedding the offending string and the engine message
in the exact format of the test file. -/
theorem claim_C6_invalid_filter (engine : FilterEngine) (bs₁ : List Block)
    (blk : Block) (junk : Bytes) (m : String)
    (hv : ∀ b ∈ bs₁, ValidBlock engine b) (hnd : (bs₁.map Block.name).Nodup)
    (hfresh : blk.name ∉ bs₁.map Block.name)
    (hn0 : 0 ∉ blk.name) (hbe0 : 0 ∉ blk.baseError) (hf0 : 0 ∉ blk.filter)
    (hfe0 : 0 ∉ blk.filterError)
    (hne : blk.filter ≠ []) (hcomp : engine blk.filter = Except.error m)
    (hfit : (encodeBlocks bs₁ ++ (encodeBlock blk ++ junk)).length < 2 ^ 64) :
    decode engine (mkInput (strBytes "1.0")
      (encodeBlocks bs₁ ++ (encodeBlock blk ++ junk)))
      = Except.error (DecodeError.invalidFilter blk.filter m) ∧
    (DecodeError.invalidFilter blk.filter m).message
      = "Received invalid filter " ++ sq ++ bytesToString blk.filter ++ sq ++ ": " ++ m :=
  ⟨decode_filterfail_generic engine bs₁ blk junk m hv hnd hfresh hn0 hbe0 hf0 hfe0
    hne hcomp hfit, rfl⟩

theorem claim_C6_witness :
    testEngine [70] = Except.error "event filter: syntax error" ∧
    decode testEngine (mkInput (strBytes "1.0") (encodeBlocks [] ++
      (encodeBlock fBlock ++ [])))
      = Except.error (DecodeError.invalidFilter [70] "event filter: syntax error") := by
  refine ⟨rfl, ?_⟩
  exact (claim_C6_invalid_filter testEngine [] fBlock [] "event filter: syntax error"
    (by intro b hb; cases hb) (by decide) (by decide) (by decide) (by decide)
    (by decide) (by decide) (by decide) rfl (by decide)).1

/-- C7: after a well-formed header with a supported version, if the 8-byte
full-size field differs in either direction from the number of bytes that
actually remain, decode fails with SizeMismatchError, whatever those
remaining bytes contain. -/
theorem claim_C7_size_mismatch (engine : FilterEngine) (v : Bytes) (n : Nat)
    (rest : Bytes) (hver : v ∈ supportedVersions) (hmod : n < 2 ^ 64)
    (hne : n ≠ rest.length) :
    decode engine (headerMarker ++ v ++ 10 :: (u64enc n ++ rest))
      = Except.error DecodeError.sizeMismatch := by
  have hv10 : (10 : Nat) ∉ v := by
    rw [mem_supportedVersions] at hver
    rw [hver]
    decide
  simp only [decode, parseHeader_enc v _ hv10, hver, if_true, readU64_enc_append,
    Nat.mod_eq_of_lt hmod, if_neg hne]

theorem claim_C7_witness :
    strBytes "1.0" ∈ supportedVersions ∧ (1 : Nat) ≠ ([] : Bytes).length ∧
    decode testEngine (headerMarker ++ strBytes "1.0" ++ 10 :: (u64enc 1 ++ []))
      = Except.error DecodeError.sizeMismatch :=
  ⟨by decide, by decide,
    claim_C7_size_mismatch testEngine (strBytes "1.0") 1 [] (by decide) (by decide)
      (by decide)⟩

/-- C8: the supported version set is exactly the string "1.0", and any
well-formed header line carrying a version outside it makes decode fail
with a HeaderError whose message embeds that version string verbatim. -/
theorem claim_C8_version_gate :
    supportedVersions = [strBytes "1.0"] ∧
    (∀ (engine : FilterEngine) (v tail : Bytes), (10 : Nat) ∉ v →
      v ∉ supportedVersions →
      decode engine (headerMarker ++ v ++ 10 :: tail)
        = Except.error (DecodeError.headerVersion v) ∧
      ∃ pre post, (DecodeError.headerVersion v).message
        = pre ++ bytesToString v ++ post) := by
  refine ⟨rfl, ?_⟩
  intro engine v tail hv10 hver
  constructor
  · simp only [decode, parseHeader_enc v _ hv10, if_neg hver]
  · exact ⟨"Unsupported config file version " ++ sq, sq, rfl⟩

theorem claim_C8_witness :
    (10 : Nat) ∉ strBytes "2.3" ∧ strBytes "2.3" ∉ supportedVersions ∧
    decode testEngine (headerMarker ++ strBytes "2.3" ++ 10 :: ([] : Bytes))
      = Except.error (DecodeError.headerVersion (strBytes "2.3")) :=
  ⟨by decide, by decide,
    (claim_C8_version_gate.2 testEngine (strBytes "2.3") [] (by decide) (by decide)).1⟩

/-- C9: the duplicate-name check runs right after the second block's name
is read: a second block whose declared area holds only the repeated
NUL-terminated name (no base-settings or filter-settings sections) fails
with DuplicateBlockError naming it; with a fresh name instead, the same
truncated block fails with the AreaBoundsError naming "base settings
size" that the missing sections would otherwise raise. -/
theorem claim_C9_duplicate_before_sections :
    (∀ (engine : FilterEngine) (b : Block), ValidBlock engine b →
      (encodeBlocks [b] ++ (u64enc ((b.name ++ 0 :: []) : Bytes).length ++
        (b.name ++ 0 :: []))).length < 2 ^ 64 →
      decode engine (mkInput (strBytes "1.0") (encodeBlocks [b] ++
        (u64enc ((b.name ++ 0 :: []) : Bytes).length ++ (b.name ++ 0 :: []))))
        = Except.error (DecodeError.duplicateBlock b.name)) ∧
    (∀ (engine : FilterEngine) (b : Block) (n2 : Bytes), ValidBlock engine b →
      n2 ≠ b.name → 0 ∉ n2 →
      (encodeBlocks [b] ++ (u64enc ((n2 ++ [0]) : Bytes).length ++
        (n2 ++ [0]))).length < 2 ^ 64 →
      decode engine (mkInput (strBytes "1.0") (encodeBlocks [b] ++
        (u64enc ((n2 ++ [0]) : Bytes).length ++ (n2 ++ [0]))))
        = Except.error (DecodeError.areaTooSmall "base settings size")) := by
  constructor
  · intro engine b hv hfit
    have hv' : ∀ c ∈ [b], ValidBlock engine c := by
      intro c hc
      rw [List.mem_singleton] at hc
      subst hc
      exact hv
    exact decode_dup_generic engine [b] b.name [] hv' (by simp) (by simp)
      hv.2.1 (List.getLast?_concat _) hfit
  · intro engine b n2 hv hne h0 hfit
    have hv' : ∀ c ∈ [b], ValidBlock engine c := by
      intro c hc
      rw [List.mem_singleton] at hc
      subst hc
      exact hv
    have hfr : n2 ∉ [b].map Block.name := by
      simp only [List.map_cons, List.map_nil, List.mem_singleton]
      exact hne
    exact decode_nameOnly_generic engine [b] n2 hv' (by simp) hfr h0 hfit

theorem claim_C9_witness :
    ValidBlock testEngine wBlock ∧
    decode testEngine (mkInput (strBytes "1.0") (encodeBlocks [wBlock] ++
      (u64enc ((wBlock.name ++ 0 :: []) : Bytes).length ++ (wBlock.name ++ 0 :: []))))
      = Except.error (DecodeError.duplicateBlock wBlock.name) ∧
    decode testEngine (mkInput (strBytes "1.0") (encodeBlocks [wBlock] ++
      (u64enc (([77] ++ [0]) : Bytes).length ++ ([77] ++ [0]))))
      = Except.error (DecodeError.areaTooSmall "base settings size") := by
  have hvb : ValidBlock testEngine wBlock :=
    ⟨by decide, by decide, by decide, by decide, by decide, Or.inl rfl⟩
  exact ⟨hvb,
    claim_C9_duplicate_before_sections.1 testEngine wBlock hvb (by decide),
    claim_C9_duplicate_before_sections.2 testEngine wBlock [77] hvb (by decide)
      (by decide) (by decide)⟩

/-- C10: filter compilation is attempted only after both strings of the
filter area were read: when the filter diagnostic string has no NUL within
the filter area, decode reports AreaBoundsError naming "filter settings
error" for EVERY engine - in particular for engines that would reject the
already-read filter string - so a FilterSyntaxError is never produced for
a filter area whose strings do not decode.  The second conjunct shows this
on the full test-file input whose filter string is "F". -/
theorem claim_C10_error_before_compile :
    (∀ (engine : FilterEngine) (n : Nat) (rest f r2 : Bytes),
      n ≤ rest.length → n < 2 ^ 64 → splitNul (rest.take n) = some (f, r2) →
      0 ∉ r2 →
      decodeFilterSettings engine (u64enc n ++ rest)
        = Except.error (DecodeError.pointsOutside "filter settings error")) ∧
    (∀ engine : FilterEngine, decode engine tvFilterErrorMissing
      = Except.error (DecodeError.pointsOutside "filter settings error")) := by
  constructor
  · intro engine n rest f r2 hle hmod hsplit h0
    exact decodeFilterSettings_error_missing engine n rest f r2 hle hmod hsplit h0
  · intro engine
    rfl

theorem claim_C10_witness :
    splitNul (([70, 0] : Bytes).take 2) = some ([70], []) ∧
    rejectAll [70] = Except.error "event filter: syntax error" ∧
    decodeFilterSettings rejectAll (u64enc 2 ++ [70, 0])
      = Except.error (DecodeError.pointsOutside "filter settings error") ∧
    decode rejectAll tvFilterErrorMissing
      = Except.error (DecodeError.pointsOutside "filter settings error") :=
  ⟨by decide, rfl,
    claim_C10_error_before_compile.1 rejectAll 2 [70, 0] [70] [] (by decide)
      (by decide) (by decide) (by decide),
    claim_C10_error_before_compile.2 rejectAll⟩

end DovecotConf
